import Mathlib

/-!
Verification of the billy-router mount-table subsystem: a shallow embedding of
router.go (path normalization, the mount-table prefix tree, Mount/Umount,
longest-prefix resolution, the directory-listing merge loop, rename dispatch,
and the delegation wrappers), with theorems settling the specified properties.

Backends (billy.Filesystem values) are modelled by numeric identities plus an
environment assigning each identity its observable behaviour. Timestamps
(time.Now) are passed in explicitly as naturals. A Go panic is modelled by
returning none. Go maps are modelled by key-unique association lists.
-/

namespace BillyRouter

/-- Splitting on the slash character, mirroring Go strings.Split(s, "/"):
the result is never empty, and splitting the empty string yields [""]. -/
def splitSlashAux (cur : List Char) : List Char → List String
  | [] => [String.mk cur.reverse]
  | c :: rest =>
    if c = '/' then String.mk cur.reverse :: splitSlashAux [] rest
    else splitSlashAux (c :: cur) rest

/-- Go strings.Split(s, "/"). -/
def splitSlash (s : String) : List String := splitSlashAux [] s.toList

/-- Go strings.Join(xs, "/"). -/
def joinSlash : List String → String
  | [] => ""
  | [x] => x
  | x :: y :: xs => x ++ "/" ++ joinSlash (y :: xs)

/-- Element processing of Go path.Clean: drop empty and "." elements,
let ".." pop the preceding element (kept literally at the start of a
relative path, dropped at the root of a rooted path). The accumulator is
the processed prefix in reverse. -/
def cleanLoop (rooted : Bool) : List String → List String → List String
  | acc, [] => acc.reverse
  | acc, s :: rest =>
    if s = "" ∨ s = "." then cleanLoop rooted acc rest
    else if s = ".." then
      match acc with
      | [] => cleanLoop rooted (if rooted then [] else [".."]) rest
      | a :: acc2 =>
        if a = ".." then cleanLoop rooted (".." :: a :: acc2) rest
        else cleanLoop rooted acc2 rest
    else cleanLoop rooted (s :: acc) rest

/-- Whether the path begins with a slash. -/
def isRooted (s : String) : Bool :=
  match s.toList with
  | '/' :: _ => true
  | _ => false

/-- Go path.Clean: lexical cleaning of a slash-separated path. -/
def pathClean (p : String) : String :=
  if p = "" then "."
  else
    let rooted := isRooted p
    let out := cleanLoop rooted [] (splitSlash p)
    if out = [] then (if rooted then "/" else ".")
    else (if rooted then "/" else "") ++ joinSlash out

/-- Go strings.TrimRight(s, "/"): strip all trailing slash characters. -/
def trimRightSlash (s : String) : String :=
  String.mk ((s.toList.reverse.dropWhile (fun c => c = '/')).reverse)

/-- cleanPath from router.go, with the code's exact branch structure:
clean the path, trim trailing slashes, then return it only when it equals
".", returning "" in every other case. -/
def cleanPath (p : String) : String :=
  let q := trimRightSlash (pathClean p)
  if q = "." then q else ""

mutual
/-- The subRoute struct of router.go: an optional bound backend (nil
modelled as none), a modification timestamp, and the child map. -/
inductive SubRoute : Type where
  | mk (fs : Option Nat) (mtime : Nat) (routes : RouteMap)
/-- The map[string]*subRoute of router.go, as a key-unique association list. -/
inductive RouteMap : Type where
  | nil : RouteMap
  | cons (seg : String) (node : SubRoute) (rest : RouteMap) : RouteMap
end

def SubRoute.fs : SubRoute → Option Nat
  | .mk f _ _ => f

def SubRoute.mtime : SubRoute → Nat
  | .mk _ m _ => m

def SubRoute.routes : SubRoute → RouteMap
  | .mk _ _ r => r

/-- Go map read m[k]. -/
def RouteMap.lookup (s : String) : RouteMap → Option SubRoute
  | .nil => none
  | .cons a t rest => if a = s then some t else RouteMap.lookup s rest

/-- Go map write m[k] = v. -/
def RouteMap.insert (s : String) (c : SubRoute) : RouteMap → RouteMap
  | .nil => .cons s c .nil
  | .cons a t rest =>
    if a = s then .cons a c rest else .cons a t (RouteMap.insert s c rest)

/-- Go delete(m, k). -/
def RouteMap.erase (s : String) : RouteMap → RouteMap
  | .nil => .nil
  | .cons a t rest => if a = s then rest else .cons a t (RouteMap.erase s rest)

/-- Go len(m) == 0. -/
def RouteMap.isEmpty : RouteMap → Bool
  | .nil => true
  | .cons _ _ _ => false

/-- The keys of the child map. -/
def RouteMap.keys : RouteMap → List String
  | .nil => []
  | .cons a _ rest => a :: RouteMap.keys rest

/-- The Go error values this code can surface. -/
inductive GoErr : Type where
  | notExist
  | permission
  | errInvalid
  | notSupported
  | nilFS
  | wrapped (msg : String) (cause : GoErr)
deriving DecidableEq

/-- The Router struct: the root subRoute and the configured cross-filesystem
rename callback. The mutex is a no-op in this sequential model. -/
structure Router : Type where
  routes : SubRoute
  crossFilesystemRenameCallback : Option Nat → Option Nat → String → String → Except GoErr Unit

/-- The default cross filesystem rename callback of router.go: always an
error wrapping os.ErrInvalid. -/
def crossFilesystemRenameNotSupported (fromFS toFS : Option Nat) (fromPath toPath : String) : Except GoErr Unit :=
  Except.error (GoErr.wrapped "renaming across virtual mountpoints is not supported" GoErr.errInvalid)

/-- New from router.go: the root node holds the root backend, the current
time, and an empty child map; the default rename callback is installed. -/
def Router.new (root : Nat) (now : Nat) : Router :=
  Router.mk (SubRoute.mk (some root) now RouteMap.nil) crossFilesystemRenameNotSupported

/-- The normalized segment list a path is mounted/unmounted/resolved at:
strings.Split(cleanPath(p), "/"). -/
def segsOfMountPath (p : String) : List String := splitSlash (cleanPath p)

/-- The descending loop of Router.Mount over the already-split path: fetch or
create each child, stamp it with the current time, and bind the backend at
the terminal node. -/
def mountSegs (now f : Nat) : List String → SubRoute → SubRoute
  | [], SubRoute.mk _ m rs => SubRoute.mk (some f) m rs
  | s :: rest, SubRoute.mk fs0 m rs =>
    let child0 := match RouteMap.lookup s rs with
      | some c => c
      | none => SubRoute.mk none 0 RouteMap.nil
    SubRoute.mk fs0 m
      (RouteMap.insert s (mountSegs now f rest (SubRoute.mk child0.fs now child0.routes)) rs)

/-- Router.Mount. -/
def routerMount (r : Router) (p : String) (f : Nat) (now : Nat) : Router :=
  Router.mk (mountSegs now f (segsOfMountPath p) r.routes) r.crossFilesystemRenameCallback

/-- The walk and prune of Router.Umount over the already-split path: none
models the panic on a missing segment; otherwise the terminal node's backend
is cleared and every ancestor left with no backend and no children is
deleted from its parent, stamping the parent with the current time. -/
def umountSegs (now : Nat) : List String → SubRoute → Option SubRoute
  | [], SubRoute.mk _ m rs => some (SubRoute.mk none m rs)
  | s :: rest, SubRoute.mk fs0 m rs =>
    match RouteMap.lookup s rs with
    | none => none
    | some child =>
      match umountSegs now rest child with
      | none => none
      | some child1 =>
        if RouteMap.isEmpty child1.routes && child1.fs.isNone
        then some (SubRoute.mk fs0 now (RouteMap.erase s rs))
        else some (SubRoute.mk fs0 m (RouteMap.insert s child1 rs))

/-- Router.Umount; none models the panic. -/
def routerUmount (r : Router) (p : String) (now : Nat) : Option Router :=
  match umountSegs now (segsOfMountPath p) r.routes with
  | none => none
  | some t => some (Router.mk t r.crossFilesystemRenameCallback)

/-- The loop of resolvePathWithMount: walk existing children, tracking in acc
the index of the last segment whose node carries a backend (exactly as the
code updates lastMount; the code never updates the returned backend). -/
def lastMountLoop : SubRoute → List String → Nat → Nat → Nat
  | _, [], _, acc => acc
  | sr, s :: rest, i, acc =>
    match RouteMap.lookup s sr.routes with
    | none => acc
    | some child => lastMountLoop child rest (i + 1) (if child.fs.isSome then i else acc)

/-- resolvePathWithMount from router.go: returns the joined remainder, the
joined matched prefix, and the mount variable (which the code initializes to
the root node's backend and never reassigns). -/
def resolvePathWithMount (r : Router) (p : String) : String × String × Option Nat :=
  let sp := splitSlash (cleanPath p)
  let lm := lastMountLoop r.routes sp 0 0
  (joinSlash (sp.drop lm), joinSlash (sp.take lm), r.routes.fs)

/-- resolvePath from router.go. -/
def resolvePath (r : Router) (p : String) : String × Option Nat :=
  ((resolvePathWithMount r p).1, (resolvePathWithMount r p).2.2)

/-- The node reached from t by following the given segments, if every
segment exists. -/
def findNode : SubRoute → List String → Option SubRoute
  | t, [] => some t
  | t, s :: rest =>
    match RouteMap.lookup s t.routes with
    | none => none
    | some c => findNode c rest

/-- The backend bound at the node addressed by the given segments (none when
the node is absent or unbound). -/
def bindingAt (t : SubRoute) (segs : List String) : Option Nat :=
  match findNode t segs with
  | none => none
  | some n => n.fs

/-- os.FileInfo as far as this code observes it: Name, IsDir, Size, ModTime. -/
structure FInfo : Type where
  name : String
  size : Nat
  isDir : Bool
  mtime : Nat
deriving DecidableEq

/-- The virtualDir value of router.go: a synthetic directory entry named
after the mount segment, of size 4096, carrying the node's mtime. -/
def virtualDir (mp : String) (mtime : Nat) : FInfo :=
  FInfo.mk mp 4096 true mtime

/-- Observable behaviour of a backend filesystem, looked up by identity. -/
structure BackendOps : Type where
  openf : String → Except GoErr Nat
  createf : String → Except GoErr Nat
  openFileF : String → Nat → Nat → Except GoErr Nat
  tempFileF : String → String → Except GoErr Nat
  rootStat : Option FInfo
  readDirF : String → Except GoErr (List FInfo)

/-- The wrappedFile struct: a backend file handle plus the original name. -/
structure WrappedFile : Type where
  handle : Nat
  originalName : String
deriving DecidableEq

/-- wrappedFile.Name returns the original caller-supplied path. -/
def WrappedFile.goName (f : WrappedFile) : String := f.originalName

/-- Router.Open: resolve, delegate, wrap the handle with the original path. -/
def routerOpen (env : Nat → BackendOps) (r : Router) (p : String) : Except GoErr WrappedFile :=
  match resolvePath r p with
  | (_, none) => Except.error GoErr.nilFS
  | (sub, some f) =>
    match (env f).openf sub with
    | Except.error e => Except.error e
    | Except.ok fh => Except.ok (WrappedFile.mk fh p)

/-- Router.Create. -/
def routerCreate (env : Nat → BackendOps) (r : Router) (p : String) : Except GoErr WrappedFile :=
  match resolvePath r p with
  | (_, none) => Except.error GoErr.nilFS
  | (sub, some f) =>
    match (env f).createf sub with
    | Except.error e => Except.error e
    | Except.ok fh => Except.ok (WrappedFile.mk fh p)

/-- Router.OpenFile. -/
def routerOpenFile (env : Nat → BackendOps) (r : Router) (p : String) (flag mode : Nat) : Except GoErr WrappedFile :=
  match resolvePath r p with
  | (_, none) => Except.error GoErr.nilFS
  | (sub, some f) =>
    match (env f).openFileF sub flag mode with
    | Except.error e => Except.error e
    | Except.ok fh => Except.ok (WrappedFile.mk fh p)

/-- Router.TempFile: an empty dir goes straight to the root backend with the
dir as given; any other dir is resolved through the mount table. -/
def routerTempFile (env : Nat → BackendOps) (r : Router) (dir pfx : String) : Except GoErr Nat :=
  if dir = "" then
    match r.routes.fs with
    | none => Except.error GoErr.nilFS
    | some root => (env root).tempFileF dir pfx
  else
    match resolvePath r dir with
    | (_, none) => Except.error GoErr.nilFS
    | (sub, some f) => (env f).tempFileF sub pfx

/-- A resolved location: backend-relative path, mount-point path, backend. -/
structure Resolved : Type where
  sub : String
  mountPt : String
  fs : Option Nat
deriving DecidableEq

/-- resolvePathWithMount packaged as a Resolved record. -/
def resolveR (r : Router) (p : String) : Resolved :=
  Resolved.mk (resolvePathWithMount r p).1 (resolvePathWithMount r p).2.1 (resolvePathWithMount r p).2.2

/-- Which backend call Router.Rename performs: a direct same-backend rename,
or an invocation of the cross-filesystem rename callback. -/
inductive RenameCall : Type where
  | direct (fs : Option Nat) (fromSub toSub : String)
  | crossPolicy (fromFS toFS : Option Nat) (fromSub toSub : String)
deriving DecidableEq

/-- The dispatch of Router.Rename on the two resolved locations: identical
backend and identical mount point delegate directly, anything else goes to
the callback with both backends and both backend-relative paths. -/
def renameDispatch (fromR toR : Resolved) : RenameCall :=
  if fromR.fs = toR.fs ∧ fromR.mountPt = toR.mountPt
  then RenameCall.direct fromR.fs fromR.sub toR.sub
  else RenameCall.crossPolicy fromR.fs toR.fs fromR.sub toR.sub

/-- Router.Rename as the call it issues after resolving both paths. -/
def routerRenameCall (r : Router) (fromP toP : String) : RenameCall :=
  renameDispatch (resolveR r fromP) (resolveR r toP)

/-- A finite map from names to entries, as the ReadDir merge's out map. -/
def updMap (m : String → Option FInfo) (k : String) (v : FInfo) : String → Option FInfo :=
  fun x => if x = k then some v else m x

/-- The out map after inserting the backend's real entries in order,
later entries overwriting earlier ones of the same name. -/
def entriesMap (es : List FInfo) : String → Option FInfo :=
  es.foldl (fun m e => updMap m e.name e) (fun _ => none)

/-- One step of the ReadDir merge loop for a child mount node: an unbound
child yields a virtual directory unless a same-named real directory entry is
already present; a bound child stats its backend's root, and that entry
replaces whatever is present (an error aborts the listing). -/
def mergeStep (stat : Nat → Option FInfo) (mp : String) (ro : SubRoute) (out : String → Option FInfo) : Option (String → Option FInfo) :=
  match ro.fs with
  | none =>
    match out mp with
    | some e => if e.isDir then some out else some (updMap out mp (virtualDir mp ro.mtime))
    | none => some (updMap out mp (virtualDir mp ro.mtime))
  | some f =>
    match stat f with
    | none => none
    | some st => some (updMap out mp st)

/-- The ReadDir merge loop over the copied child map. -/
def mergeRoutes (stat : Nat → Option FInfo) : RouteMap → (String → Option FInfo) → Option (String → Option FInfo)
  | .nil, out => some out
  | .cons mp ro rest, out =>
    match mergeStep stat mp ro out with
    | none => none
    | some out1 => mergeRoutes stat rest out1

/-- Key uniqueness of a child map (Go maps have unique keys). -/
def routeKeysNodup : RouteMap → Bool
  | .nil => true
  | .cons s _ rest => (RouteMap.lookup s rest).isNone && routeKeysNodup rest

mutual
/-- The garbage-free-tree invariant at a node: it is bound or has children,
and all of its children satisfy the same. -/
def goodSub : SubRoute → Bool
  | .mk fs _ rs => (fs.isSome || !(RouteMap.isEmpty rs)) && goodChildren rs
/-- The garbage-free-tree invariant for all nodes of a child map. -/
def goodChildren : RouteMap → Bool
  | .nil => true
  | .cons _ t rest => goodSub t && goodChildren rest
end

mutual
/-- Whether a node is bound or has a bound descendant. -/
def liveNode : SubRoute → Bool
  | .mk fs _ rs => fs.isSome || liveList rs
/-- Whether some node of a child map is live. -/
def liveList : RouteMap → Bool
  | .nil => false
  | .cons _ t rest => liveNode t || liveList rest
end

theorem lookup_insert_self (s : String) (c : SubRoute) :
    ∀ rs : RouteMap, RouteMap.lookup s (RouteMap.insert s c rs) = some c
  | .nil => by simp [RouteMap.insert, RouteMap.lookup]
  | .cons a t rest => by
    by_cases h : a = s
    · simp [RouteMap.insert, RouteMap.lookup, h]
    · simp [RouteMap.insert, RouteMap.lookup, h, lookup_insert_self s c rest]

theorem lookup_insert_ne (a s : String) (c : SubRoute) (hne : a ≠ s) :
    ∀ rs : RouteMap, RouteMap.lookup a (RouteMap.insert s c rs) = RouteMap.lookup a rs
  | .nil => by simp [RouteMap.insert, RouteMap.lookup, Ne.symm hne]
  | .cons b t rest => by
    by_cases h : b = s
    · subst h
      simp [RouteMap.insert, RouteMap.lookup, Ne.symm hne]
    · simp only [RouteMap.insert, RouteMap.lookup, if_neg h]
      by_cases h2 : b = a
      · simp [h2]
      · simp [h2, lookup_insert_ne a s c hne rest]

theorem insert_isEmpty (s : String) (c : SubRoute) :
    ∀ rs : RouteMap, RouteMap.isEmpty (RouteMap.insert s c rs) = false
  | .nil => rfl
  | .cons a t rest => by
    by_cases h : a = s <;> simp [RouteMap.insert, RouteMap.isEmpty, h]

theorem goodSub_children (t : SubRoute) (h : goodSub t = true) : goodChildren t.routes = true := by
  cases t with
  | mk fs0 m rs =>
    simp [goodSub, Bool.and_eq_true] at h
    simpa [SubRoute.routes] using h.2

theorem lookup_goodChildren (s : String) (c : SubRoute) :
    ∀ rs : RouteMap, goodChildren rs = true → RouteMap.lookup s rs = some c → goodSub c = true
  | .nil => by intro _ hl; simp [RouteMap.lookup] at hl
  | .cons a t rest => by
    intro hg hl
    simp [goodChildren, Bool.and_eq_true] at hg
    by_cases h : a = s
    · simp [RouteMap.lookup, h] at hl
      exact hl ▸ hg.1
    · simp [RouteMap.lookup, h] at hl
      exact lookup_goodChildren s c rest hg.2 hl

theorem goodChildren_insert (s : String) (c : SubRoute) :
    ∀ rs : RouteMap, goodChildren rs = true → goodSub c = true →
      goodChildren (RouteMap.insert s c rs) = true
  | .nil => by intro _ hc; simp [RouteMap.insert, goodChildren, hc]
  | .cons a t rest => by
    intro hg hc
    simp [goodChildren, Bool.and_eq_true] at hg
    by_cases h : a = s
    · simp [RouteMap.insert, h, goodChildren, Bool.and_eq_true, hc, hg.2]
    · simp [RouteMap.insert, h, goodChildren, Bool.and_eq_true, hg.1,
        goodChildren_insert s c rest hg.2 hc]

theorem goodChildren_erase (s : String) :
    ∀ rs : RouteMap, goodChildren rs = true → goodChildren (RouteMap.erase s rs) = true
  | .nil => by intro h; simpa [RouteMap.erase] using h
  | .cons a t rest => by
    intro hg
    simp [goodChildren, Bool.and_eq_true] at hg
    by_cases h : a = s
    · simp [RouteMap.erase, h, hg.2]
    · simp [RouteMap.erase, h, goodChildren, Bool.and_eq_true, hg.1,
        goodChildren_erase s rest hg.2]

theorem bindingAt_retime (c : SubRoute) (now : Nat) (q : List String) :
    bindingAt (SubRoute.mk c.fs now c.routes) q = bindingAt c q := by
  cases c with
  | mk fs0 m rs =>
    cases q with
    | nil => rfl
    | cons b q2 => simp [bindingAt, findNode, SubRoute.routes, SubRoute.fs]

theorem bindingAt_fresh (now : Nat) (q : List String) :
    bindingAt (SubRoute.mk none now RouteMap.nil) q = none := by
  cases q with
  | nil => rfl
  | cons b q2 => simp [bindingAt, findNode, SubRoute.routes, RouteMap.lookup]

theorem bindingAt_cons_insert (fs0 : Option Nat) (m : Nat) (rs : RouteMap) (a : String)
    (M : SubRoute) (q : List String) :
    bindingAt (SubRoute.mk fs0 m (RouteMap.insert a M rs)) (a :: q) = bindingAt M q := by
  simp [bindingAt, findNode, SubRoute.routes, lookup_insert_self]

theorem bindingAt_cons_ne (fs0 : Option Nat) (m : Nat) (rs : RouteMap) (a s : String)
    (hne : a ≠ s) (M : SubRoute) (q : List String) :
    bindingAt (SubRoute.mk fs0 m (RouteMap.insert s M rs)) (a :: q)
      = bindingAt (SubRoute.mk fs0 m rs) (a :: q) := by
  simp [bindingAt, findNode, SubRoute.routes, lookup_insert_ne a s M hne rs]

theorem mountSegs_cons_eq (now f : Nat) (s : String) (rest : List String)
    (fs0 : Option Nat) (m : Nat) (rs : RouteMap) (c : SubRoute)
    (hl : RouteMap.lookup s rs = some c) :
    mountSegs now f (s :: rest) (SubRoute.mk fs0 m rs)
      = SubRoute.mk fs0 m
          (RouteMap.insert s (mountSegs now f rest (SubRoute.mk c.fs now c.routes)) rs) := by
  simp [mountSegs, hl]

theorem mountSegs_cons_new (now f : Nat) (s : String) (rest : List String)
    (fs0 : Option Nat) (m : Nat) (rs : RouteMap)
    (hl : RouteMap.lookup s rs = none) :
    mountSegs now f (s :: rest) (SubRoute.mk fs0 m rs)
      = SubRoute.mk fs0 m
          (RouteMap.insert s (mountSegs now f rest (SubRoute.mk none now RouteMap.nil)) rs) := by
  simp [mountSegs, hl, SubRoute.fs, SubRoute.routes]

theorem mount_frame (now f : Nat) :
    ∀ (sp : List String) (t : SubRoute) (segs : List String), segs ≠ sp →
      bindingAt (mountSegs now f sp t) segs = bindingAt t segs
  | [], t, segs, h => by
    cases t with
    | mk fs0 m rs =>
      cases segs with
      | nil => exact absurd rfl h
      | cons a q =>
        cases hl : RouteMap.lookup a rs <;>
          simp [mountSegs, bindingAt, findNode, SubRoute.routes, hl]
  | s :: rest, t, segs, h => by
    cases t with
    | mk fs0 m rs =>
      cases segs with
      | nil =>
        cases hl : RouteMap.lookup s rs
        · rw [mountSegs_cons_new now f s rest fs0 m rs hl]
          rfl
        · rw [mountSegs_cons_eq now f s rest fs0 m rs _ hl]
          rfl
      | cons a q =>
        by_cases ha : a = s
        · subst ha
          have hq : q ≠ rest := fun he => h (by rw [he])
          cases hl : RouteMap.lookup a rs with
          | none =>
            have ihq := mount_frame now f rest (SubRoute.mk none now RouteMap.nil) q hq
            rw [bindingAt_fresh] at ihq
            rw [mountSegs_cons_new now f a rest fs0 m rs hl, bindingAt_cons_insert, ihq]
            simp [bindingAt, findNode, SubRoute.routes, hl]
          | some c =>
            have ihq := mount_frame now f rest (SubRoute.mk c.fs now c.routes) q hq
            rw [bindingAt_retime] at ihq
            rw [mountSegs_cons_eq now f a rest fs0 m rs _ hl, bindingAt_cons_insert, ihq]
            simp [bindingAt, findNode, SubRoute.routes, hl]
        · cases hl : RouteMap.lookup s rs
          · rw [mountSegs_cons_new now f s rest fs0 m rs hl]
            exact bindingAt_cons_ne fs0 m rs a s ha _ q
          · rw [mountSegs_cons_eq now f s rest fs0 m rs _ hl]
            exact bindingAt_cons_ne fs0 m rs a s ha _ q

theorem mount_binds (now f : Nat) :
    ∀ (sp : List String) (t : SubRoute), bindingAt (mountSegs now f sp t) sp = some f
  | [], t => by cases t with
    | mk fs0 m rs => simp [mountSegs, bindingAt, findNode, SubRoute.fs]
  | s :: rest, t => by
    cases t with
    | mk fs0 m rs =>
      cases hl : RouteMap.lookup s rs
      · rw [mountSegs_cons_new now f s rest fs0 m rs hl, bindingAt_cons_insert]
        exact mount_binds now f rest _
      · rw [mountSegs_cons_eq now f s rest fs0 m rs _ hl, bindingAt_cons_insert]
        exact mount_binds now f rest _

theorem goodSub_mk_insert (fs0 : Option Nat) (m : Nat) (rs : RouteMap) (s : String)
    (M : SubRoute) (h : goodChildren rs = true) (hM : goodSub M = true) :
    goodSub (SubRoute.mk fs0 m (RouteMap.insert s M rs)) = true := by
  simp [goodSub, Bool.and_eq_true, insert_isEmpty, goodChildren_insert s M rs h hM]

theorem mount_good (now f : Nat) :
    ∀ (sp : List String) (t : SubRoute), goodChildren t.routes = true →
      goodSub (mountSegs now f sp t) = true
  | [], t => by
    cases t with
    | mk fs0 m rs =>
      intro h
      simp [SubRoute.routes] at h
      simp [mountSegs, goodSub, h]
  | s :: rest, t => by
    cases t with
    | mk fs0 m rs =>
      intro h
      simp [SubRoute.routes] at h
      cases hl : RouteMap.lookup s rs with
      | none =>
        have ih := mount_good now f rest (SubRoute.mk none now RouteMap.nil)
          (by simp [SubRoute.routes, goodChildren])
        rw [mountSegs_cons_new now f s rest fs0 m rs hl]
        exact goodSub_mk_insert fs0 m rs s _ h ih
      | some c =>
        have hc : goodChildren c.routes = true :=
          goodSub_children c (lookup_goodChildren s c rs h hl)
        have ih := mount_good now f rest (SubRoute.mk c.fs now c.routes)
          (by simpa [SubRoute.routes] using hc)
        rw [mountSegs_cons_eq now f s rest fs0 m rs _ hl]
        exact goodSub_mk_insert fs0 m rs s _ h ih

theorem umountSegs_none_iff (now : Nat) :
    ∀ (sp : List String) (t : SubRoute),
      umountSegs now sp t = none ↔ findNode t sp = none
  | [], t => by cases t with
    | mk fs0 m rs => simp [umountSegs, findNode]
  | s :: rest, t => by
    cases t with
    | mk fs0 m rs =>
      cases hl : RouteMap.lookup s rs with
      | none => simp [umountSegs, findNode, SubRoute.routes, hl]
      | some c =>
        cases hu : umountSegs now rest c with
        | none =>
          have hf : findNode c rest = none := (umountSegs_none_iff now rest c).mp hu
          simp [umountSegs, findNode, SubRoute.routes, hl, hu, hf]
        | some c1 =>
          have hf : ¬ findNode c rest = none := by
            rw [← umountSegs_none_iff now rest c]
            simp [hu]
          simp only [umountSegs, findNode, SubRoute.routes, hl, hu]
          constructor
          · intro h2
            split at h2 <;> simp at h2
          · intro h2
            exact absurd h2 hf

theorem umount_good (now : Nat) :
    ∀ (sp : List String) (t t1 : SubRoute), goodChildren t.routes = true →
      umountSegs now sp t = some t1 → goodChildren t1.routes = true
  | [], t, t1 => by
    cases t with
    | mk fs0 m rs =>
      intro h hu
      simp [umountSegs] at hu
      simpa [← hu, SubRoute.routes] using h
  | s :: rest, t, t1 => by
    cases t with
    | mk fs0 m rs =>
      intro h hu
      simp [SubRoute.routes] at h
      cases hl : RouteMap.lookup s rs with
      | none => simp [umountSegs, hl] at hu
      | some c =>
        cases hc : umountSegs now rest c with
        | none => simp [umountSegs, hl, hc] at hu
        | some c1 =>
          have hc1 : goodChildren c1.routes = true :=
            umount_good now rest c c1
              (goodSub_children c (lookup_goodChildren s c rs h hl)) hc
          simp only [umountSegs, hl, hc] at hu
          split at hu
          · cases hu
            simpa [SubRoute.routes] using goodChildren_erase s rs h
          · rename_i hcond
            cases hu
            have hgood : goodSub c1 = true := by
              cases c1 with
              | mk a2 b2 d2 =>
                simp only [goodSub, Bool.and_eq_true]
                refine ⟨?_, by simpa [SubRoute.routes] using hc1⟩
                cases a2 with
                | some v => simp
                | none =>
                  cases d2 with
                  | nil =>
                    exact absurd
                      (by simp [SubRoute.routes, SubRoute.fs, RouteMap.isEmpty]) hcond
                  | cons x y z => simp [RouteMap.isEmpty]
            simpa [SubRoute.routes] using goodChildren_insert s c1 rs h hgood

mutual
theorem liveOfGood : ∀ t : SubRoute, goodSub t = true → liveNode t = true
  | .mk fs0 m rs, h => by
    simp only [goodSub, Bool.and_eq_true] at h
    simp only [liveNode, Bool.or_eq_true]
    cases hfs : fs0.isSome with
    | true => exact Or.inl rfl
    | false =>
      refine Or.inr (liveOfGoodChildren rs h.2 ?_)
      have h1 := h.1
      rw [hfs] at h1
      simpa using h1
theorem liveOfGoodChildren :
    ∀ rs : RouteMap, goodChildren rs = true → RouteMap.isEmpty rs = false → liveList rs = true
  | .nil, _, he => by simp [RouteMap.isEmpty] at he
  | .cons s t rest, h, _ => by
    simp only [goodChildren, Bool.and_eq_true] at h
    simp only [liveList, Bool.or_eq_true]
    exact Or.inl (liveOfGood t h.1)
end

theorem findNode_good :
    ∀ (segs : List String) (t n : SubRoute), goodChildren t.routes = true →
      findNode t segs = some n → segs ≠ [] → goodSub n = true
  | [], _, _, _, _, hne => absurd rfl hne
  | s :: rest, t, n, h, hf, _ => by
    cases t with
    | mk fs0 m rs =>
      simp [SubRoute.routes] at h
      cases hl : RouteMap.lookup s rs with
      | none => simp [findNode, SubRoute.routes, hl] at hf
      | some c =>
        have hc : goodSub c = true := lookup_goodChildren s c rs h hl
        simp only [findNode, SubRoute.routes, hl] at hf
        cases rest with
        | nil =>
          simp [findNode] at hf
          exact hf ▸ hc
        | cons b q =>
          exact findNode_good (b :: q) c n (goodSub_children c hc) hf (by simp)

theorem mergeStep_outside (stat : Nat → Option FInfo) (mp : String) (ro : SubRoute)
    (out out1 : String → Option FInfo) (h : mergeStep stat mp ro out = some out1)
    (x : String) (hx : x ≠ mp) : out1 x = out x := by
  cases hro : ro.fs with
  | none =>
    cases ho : out mp with
    | none =>
      simp only [mergeStep, hro, ho] at h
      cases h
      simp [updMap, hx]
    | some e =>
      by_cases hd : e.isDir = true
      · simp only [mergeStep, hro, ho, if_pos hd] at h
        cases h
        rfl
      · simp only [mergeStep, hro, ho, if_neg hd] at h
        cases h
        simp [updMap, hx]
  | some f =>
    cases hs : stat f with
    | none => simp only [mergeStep, hro, hs] at h; cases h
    | some st =>
      simp only [mergeStep, hro, hs] at h
      cases h
      simp [updMap, hx]

theorem mergeRoutes_outside (stat : Nat → Option FInfo) :
    ∀ (rs : RouteMap) (out out1 : String → Option FInfo),
      mergeRoutes stat rs out = some out1 →
      ∀ x, RouteMap.lookup x rs = none → out1 x = out x
  | .nil, out, out1 => by
    intro h x _
    cases h
    rfl
  | .cons mp ro rest, out, out1 => by
    intro h x hx
    by_cases hmp : mp = x
    · simp [RouteMap.lookup, hmp] at hx
    · simp only [RouteMap.lookup, if_neg hmp] at hx
      simp only [mergeRoutes] at h
      cases hs : mergeStep stat mp ro out with
      | none => rw [hs] at h; cases h
      | some o1 =>
        rw [hs] at h
        rw [mergeRoutes_outside stat rest o1 out1 h x hx]
        exact mergeStep_outside stat mp ro out o1 hs x (fun he => hmp he.symm)

theorem merge_rule (stat : Nat → Option FInfo) :
    ∀ (rs : RouteMap) (out0 out1 : String → Option FInfo) (x : String) (ro : SubRoute),
      RouteMap.lookup x rs = some ro → routeKeysNodup rs = true →
      mergeRoutes stat rs out0 = some out1 →
      ((ro.fs = none → out0 x = none → out1 x = some (virtualDir x ro.mtime))
        ∧ (∀ e, ro.fs = none → out0 x = some e → e.isDir = true → out1 x = some e)
        ∧ (∀ f st, ro.fs = some f → stat f = some st → out1 x = some st))
  | .nil, out0, out1, x, ro => by
    intro hl
    simp [RouteMap.lookup] at hl
  | .cons mp ro0 rest, out0, out1, x, ro => by
    intro hl hnd h
    simp only [routeKeysNodup, Bool.and_eq_true, Option.isNone_iff_eq_none] at hnd
    by_cases hmp : mp = x
    · subst hmp
      simp only [RouteMap.lookup, if_pos rfl] at hl
      cases hl
      simp only [mergeRoutes] at h
      refine ⟨?_, ?_, ?_⟩
      · intro hfs h0
        cases hs : mergeStep stat mp ro0 out0 with
        | none => rw [hs] at h; cases h
        | some o1 =>
          rw [hs] at h
          simp only [mergeStep, hfs, h0] at hs
          cases hs
          rw [mergeRoutes_outside stat rest _ out1 h mp hnd.1]
          simp [updMap]
      · intro e hfs h0 hd
        cases hs : mergeStep stat mp ro0 out0 with
        | none => rw [hs] at h; cases h
        | some o1 =>
          rw [hs] at h
          simp only [mergeStep, hfs, h0, if_pos hd] at hs
          cases hs
          rw [mergeRoutes_outside stat rest _ out1 h mp hnd.1]
          exact h0
      · intro f st hfs hst
        cases hs : mergeStep stat mp ro0 out0 with
        | none => rw [hs] at h; cases h
        | some o1 =>
          rw [hs] at h
          simp only [mergeStep, hfs, hst] at hs
          cases hs
          rw [mergeRoutes_outside stat rest _ out1 h mp hnd.1]
          simp [updMap]
    · simp only [RouteMap.lookup, if_neg hmp] at hl
      simp only [mergeRoutes] at h
      cases hs : mergeStep stat mp ro0 out0 with
      | none => rw [hs] at h; cases h
      | some o1 =>
        rw [hs] at h
        have ih := merge_rule stat rest o1 out1 x ro hl hnd.2 h
        have ho1 : o1 x = out0 x :=
          mergeStep_outside stat mp ro0 out0 o1 hs x (fun he => hmp he.symm)
        refine ⟨?_, ?_, ?_⟩
        · intro hfs h0
          exact ih.1 hfs (ho1.trans h0)
        · intro e hfs h0 hd
          exact ih.2.1 e hfs (ho1.trans h0) hd
        · exact ih.2.2

theorem cleanPath_cases (p : String) : cleanPath p = "." ∨ cleanPath p = "" := by
  by_cases h : trimRightSlash (pathClean p) = "."
  · exact Or.inl (by simp [cleanPath, h])
  · exact Or.inr (by simp [cleanPath, h])

theorem segsOfMountPath_cases (p : String) :
    segsOfMountPath p = ["."] ∨ segsOfMountPath p = [""] := by
  rcases cleanPath_cases p with h | h
  · exact Or.inl (by simp [segsOfMountPath, h]; rfl)
  · exact Or.inr (by simp [segsOfMountPath, h]; rfl)

theorem mountSegs_fs_cons (now f : Nat) (s : String) (rest : List String) (t : SubRoute) :
    (mountSegs now f (s :: rest) t).fs = t.fs := by
  cases t with
  | mk fs0 m rs =>
    cases hl : RouteMap.lookup s rs
    · rw [mountSegs_cons_new now f s rest fs0 m rs hl]
      rfl
    · rw [mountSegs_cons_eq now f s rest fs0 m rs _ hl]
      rfl

theorem routerMount_root_fs (r : Router) (p : String) (f now : Nat) :
    (routerMount r p f now).routes.fs = r.routes.fs := by
  rcases segsOfMountPath_cases p with h | h <;>
    simp [routerMount, h, mountSegs_fs_cons]

/-- A sample backend environment whose calls all succeed. -/
def demoEnv : Nat → BackendOps :=
  fun _ => BackendOps.mk (fun _ => Except.ok 42) (fun _ => Except.ok 43)
    (fun _ _ _ => Except.ok 44) (fun _ _ => Except.ok 45)
    (some (FInfo.mk "" 0 true 0)) (fun _ => Except.ok [])

theorem wrapped_ok_name (q : String × Option Nat) (k : Nat → String → Except GoErr Nat)
    (p : String) (out : WrappedFile)
    (h : (match q with
          | (_, none) => Except.error GoErr.nilFS
          | (sub, some f) =>
            match k f sub with
            | Except.error e => Except.error e
            | Except.ok fh => Except.ok (WrappedFile.mk fh p)) = Except.ok out) :
    out.goName = p := by
  obtain ⟨sub, fsOpt⟩ := q
  cases fsOpt with
  | none => simp at h
  | some f =>
    cases hk : k f sub with
    | error e => simp [hk] at h
    | ok fh =>
      simp only [hk] at h
      cases h
      rfl

/-- C1: evaluation of the code at the failing input: with root backend 7 and
backend 3 mounted at path "a", resolving "a" returns the root backend 7 and
an empty matched prefix, even though the deepest mount-table node matching
the path's segments is bound to backend 3 — the resolver never returns the
deepest bound node's backend. -/
theorem c1_resolve_eval :
    resolvePathWithMount (routerMount (Router.new 7 0) "a" 3 1) "a" = ("", "", some 7)
      ∧ bindingAt (routerMount (Router.new 7 0) "a" 3 1).routes (segsOfMountPath "a")
          = some 3 :=
  ⟨rfl, rfl⟩

/-- C2: evaluation of cleanPath at the failing inputs: the mount key of
"/tmp" is "" rather than its cleaned form "/tmp", and the mount key of "."
is "." rather than the empty representation — the branches of the
normalization function are inverted relative to the specified rule. -/
theorem c2_cleanPath_eval :
    cleanPath "/tmp" = "" ∧ cleanPath "." = "."
      ∧ trimRightSlash (pathClean "/tmp") = "/tmp" ∧ trimRightSlash (pathClean ".") = "." :=
  ⟨rfl, rfl, rfl, rfl⟩

/-- C3: evaluation of Mount at the failing input: mounting "A/B/C" on a
fresh router creates a single child node keyed by the empty string with the
backend bound to it, not a chain of nodes A, A/B, A/B/C; the subsequent
Umount of "A/B/C" does restore the empty table shape. -/
theorem c3_mount_shape_eval :
    (routerMount (Router.new 0 0) "A/B/C" 1 5).routes
        = SubRoute.mk (some 0) 0
            (RouteMap.cons "" (SubRoute.mk (some 1) 5 RouteMap.nil) RouteMap.nil)
      ∧ (routerUmount (routerMount (Router.new 0 0) "A/B/C" 1 5) "A/B/C" 6).map Router.routes
          = some (SubRoute.mk (some 0) 6 RouteMap.nil) :=
  ⟨rfl, rfl⟩

/-- C4: garbage-free tree invariant: the invariant (every retained non-root
node is bound or has children, recursively) holds of a new router, is
preserved by every complete Mount and by every completing Umount, and
implies that every node reached by a nonempty segment path is bound or has
children and has a bound backend at or below it. -/
theorem c4_garbage_free :
    (∀ root t0, goodChildren (Router.new root t0).routes.routes = true)
    ∧ (∀ (r : Router) (p : String) (f now : Nat), goodChildren r.routes.routes = true →
        goodChildren (routerMount r p f now).routes.routes = true)
    ∧ (∀ (r r1 : Router) (p : String) (now : Nat), goodChildren r.routes.routes = true →
        routerUmount r p now = some r1 → goodChildren r1.routes.routes = true)
    ∧ (∀ (r : Router) (segs : List String) (n : SubRoute),
        goodChildren r.routes.routes = true →
        findNode r.routes segs = some n → segs ≠ [] →
        (n.fs.isSome || !(RouteMap.isEmpty n.routes)) = true ∧ liveNode n = true) := by
  refine ⟨?_, ?_, ?_, ?_⟩
  · intro root t0
    simp [Router.new, SubRoute.routes, goodChildren]
  · intro r p f now h
    exact goodSub_children _ (mount_good now f (segsOfMountPath p) r.routes h)
  · intro r r1 p now h hu
    unfold routerUmount at hu
    cases hc : umountSegs now (segsOfMountPath p) r.routes with
    | none => rw [hc] at hu; cases hu
    | some t =>
      rw [hc] at hu
      cases hu
      exact umount_good now (segsOfMountPath p) r.routes t h hc
  · intro r segs n h hf hne
    have hg := findNode_good segs r.routes n h hf hne
    refine ⟨?_, liveOfGood n hg⟩
    cases n with
    | mk fs0 m rs =>
      simp only [goodSub, Bool.and_eq_true] at hg
      simpa [SubRoute.fs, SubRoute.routes] using hg.1

/-- C4 witness: the invariant, the preservation steps and the liveness
consequence at concrete inputs. -/
theorem c4_garbage_free_witness :
    goodChildren (routerMount (Router.new 0 0) "x" 1 2).routes.routes = true
    ∧ goodChildren
        (Router.mk (SubRoute.mk (some 0) 3 RouteMap.nil) crossFilesystemRenameNotSupported).routes.routes
        = true
    ∧ liveNode (SubRoute.mk (some 1) 2 RouteMap.nil) = true := by
  refine ⟨c4_garbage_free.2.1 (Router.new 0 0) "x" 1 2 (by simp [Router.new, SubRoute.routes, goodChildren]), ?_, ?_⟩
  · exact c4_garbage_free.2.2.1 (routerMount (Router.new 0 0) "x" 1 2)
      (Router.mk (SubRoute.mk (some 0) 3 RouteMap.nil) crossFilesystemRenameNotSupported)
      "x" 3
      (c4_garbage_free.2.1 (Router.new 0 0) "x" 1 2 (by simp [Router.new, SubRoute.routes, goodChildren]))
      rfl
  · exact (c4_garbage_free.2.2.2 (routerMount (Router.new 0 0) "x" 1 2) [""]
      (SubRoute.mk (some 1) 2 RouteMap.nil)
      (c4_garbage_free.2.1 (Router.new 0 0) "x" 1 2 (by simp [Router.new, SubRoute.routes, goodChildren]))
      rfl (by simp)).2

/-- C5: the ReadDir merge rule for a child mount node X of the listed
directory, over the out map initialized from the backend's real entries: an
unbound X absent from the real entries yields the synthetic virtual
directory; an unbound X whose real entry is a directory keeps the real
entry; a bound X yields its backend's root stat, replacing any real entry. -/
theorem c5_merge_rule (stat : Nat → Option FInfo) (entries : List FInfo) (rs : RouteMap)
    (out1 : String → Option FInfo) (x : String) (ro : SubRoute)
    (hl : RouteMap.lookup x rs = some ro) (hnd : routeKeysNodup rs = true)
    (h : mergeRoutes stat rs (entriesMap entries) = some out1) :
    (ro.fs = none → entriesMap entries x = none → out1 x = some (virtualDir x ro.mtime))
    ∧ (∀ e, ro.fs = none → entriesMap entries x = some e → e.isDir = true → out1 x = some e)
    ∧ (∀ f st, ro.fs = some f → stat f = some st → out1 x = some st) :=
  merge_rule stat rs (entriesMap entries) out1 x ro hl hnd h

/-- C5 witness: the three merge clauses at concrete inputs. -/
theorem c5_merge_rule_witness :
    (updMap (entriesMap []) "x" (virtualDir "x" 3)) "x" = some (virtualDir "x" 3)
    ∧ entriesMap [FInfo.mk "x" 1 true 0] "x" = some (FInfo.mk "x" 1 true 0)
    ∧ (updMap (entriesMap []) "x" (FInfo.mk "root" 10 false 9)) "x"
        = some (FInfo.mk "root" 10 false 9) := by
  refine ⟨?_, ?_, ?_⟩
  · exact (c5_merge_rule (fun _ => some (FInfo.mk "root" 10 false 9)) []
      (RouteMap.cons "x" (SubRoute.mk none 3 RouteMap.nil) RouteMap.nil)
      (updMap (entriesMap []) "x" (virtualDir "x" 3)) "x" (SubRoute.mk none 3 RouteMap.nil)
      rfl rfl rfl).1 rfl rfl
  · exact (c5_merge_rule (fun _ => some (FInfo.mk "root" 10 false 9)) [FInfo.mk "x" 1 true 0]
      (RouteMap.cons "x" (SubRoute.mk none 3 RouteMap.nil) RouteMap.nil)
      (entriesMap [FInfo.mk "x" 1 true 0]) "x" (SubRoute.mk none 3 RouteMap.nil)
      rfl rfl rfl).2.1 (FInfo.mk "x" 1 true 0) rfl rfl rfl
  · exact (c5_merge_rule (fun _ => some (FInfo.mk "root" 10 false 9)) []
      (RouteMap.cons "x" (SubRoute.mk (some 5) 3 RouteMap.nil) RouteMap.nil)
      (updMap (entriesMap []) "x" (FInfo.mk "root" 10 false 9)) "x"
      (SubRoute.mk (some 5) 3 RouteMap.nil)
      rfl rfl rfl).2.2 5 (FInfo.mk "root" 10 false 9) rfl rfl

/-- C6: Rename dispatch: when both paths resolve to the identical backend
and the identical mount-point path the rename is delegated directly to that
backend (the policy is not invoked); in every other case the configured
cross-backend policy is invoked with both backends and both
backend-relative paths; Router.Rename is exactly this dispatch applied to
the two resolutions; and the default policy unconditionally fails with the
not-supported error. -/
theorem c6_rename_dispatch :
    (∀ a b : Resolved, (a.fs = b.fs ∧ a.mountPt = b.mountPt) →
        renameDispatch a b = RenameCall.direct a.fs a.sub b.sub)
    ∧ (∀ a b : Resolved, ¬(a.fs = b.fs ∧ a.mountPt = b.mountPt) →
        renameDispatch a b = RenameCall.crossPolicy a.fs b.fs a.sub b.sub)
    ∧ (∀ (r : Router) (fromP toP : String),
        routerRenameCall r fromP toP = renameDispatch (resolveR r fromP) (resolveR r toP))
    ∧ (∀ (fFS tFS : Option Nat) (fp tp : String),
        crossFilesystemRenameNotSupported fFS tFS fp tp
          = Except.error (GoErr.wrapped
              "renaming across virtual mountpoints is not supported" GoErr.errInvalid)) := by
  refine ⟨?_, ?_, fun r a b => rfl, fun a b c d => rfl⟩
  · intro a b h
    simp only [renameDispatch]
    rw [if_pos h]
  · intro a b h
    simp only [renameDispatch]
    rw [if_neg h]

/-- C6 witness: both dispatch branches at concrete resolved locations. -/
theorem c6_rename_dispatch_witness :
    renameDispatch (Resolved.mk "a" "m" (some 1)) (Resolved.mk "b" "m" (some 1))
        = RenameCall.direct (some 1) "a" "b"
    ∧ renameDispatch (Resolved.mk "a" "m" (some 1)) (Resolved.mk "b" "n" (some 2))
        = RenameCall.crossPolicy (some 1) (some 2) "a" "b" :=
  ⟨c6_rename_dispatch.1 (Resolved.mk "a" "m" (some 1)) (Resolved.mk "b" "m" (some 1))
      ⟨rfl, rfl⟩,
   c6_rename_dispatch.2.1 (Resolved.mk "a" "m" (some 1)) (Resolved.mk "b" "n" (some 2))
      (by decide)⟩

/-- C7 counterexample: with backend 1 mounted at "a/b" (and "a" never
mounted), Umount("a") completes without the fatal signal — Umount is not
fatal on every path that is not an active mount point. -/
theorem c7_counterexample :
    (routerUmount (routerMount (Router.new 7 0) "a/b" 1 1) "a" 2).isSome = true := rfl

/-- C7 amended: Umount(p) fails fatally exactly when walking p's normalized
segments from the root meets a missing node; whenever every segment exists
(which can happen for a p that was never itself mounted), Umount completes
without a fatal signal. -/
theorem c7_umount_fatal_iff (r : Router) (p : String) (now : Nat) :
    routerUmount r p now = none ↔ findNode r.routes (segsOfMountPath p) = none := by
  unfold routerUmount
  cases hu : umountSegs now (segsOfMountPath p) r.routes with
  | none => simp [(umountSegs_none_iff now _ r.routes).mp hu]
  | some t =>
    have hne : ¬ findNode r.routes (segsOfMountPath p) = none := by
      rw [← umountSegs_none_iff now]
      simp [hu]
    simp [hne]

/-- C8: every file handle returned by Open, Create or OpenFile reports the
original caller-supplied path as its name, not the backend-relative
rewritten path. -/
theorem c8_open_reports_original_name (env : Nat → BackendOps) (r : Router) (p : String)
    (out : WrappedFile) (flag mode : Nat) :
    (routerOpen env r p = Except.ok out → out.goName = p)
    ∧ (routerCreate env r p = Except.ok out → out.goName = p)
    ∧ (routerOpenFile env r p flag mode = Except.ok out → out.goName = p) := by
  refine ⟨?_, ?_, ?_⟩
  · intro h
    exact wrapped_ok_name (resolvePath r p) (fun f sub => (env f).openf sub) p out h
  · intro h
    exact wrapped_ok_name (resolvePath r p) (fun f sub => (env f).createf sub) p out h
  · intro h
    exact wrapped_ok_name (resolvePath r p) (fun f sub => (env f).openFileF sub flag mode) p out h

/-- C8 witness: a successful Open on a concrete router reports the original
path. -/
theorem c8_open_reports_original_name_witness :
    routerOpen demoEnv (Router.new 0 0) "/tmp/x" = Except.ok (WrappedFile.mk 42 "/tmp/x")
    ∧ (WrappedFile.mk 42 "/tmp/x").goName = "/tmp/x" :=
  ⟨rfl,
   (c8_open_reports_original_name demoEnv (Router.new 0 0) "/tmp/x"
      (WrappedFile.mk 42 "/tmp/x") 0 0).1 rfl⟩

/-- C9: frame property of Mount: the backend binding at every mount-table
segment path other than the normalized mount path is unchanged, the
normalized mount path itself becomes bound to the new backend, and the
backend returned by resolution is unchanged for every path. -/
theorem c9_mount_frame (r : Router) (p : String) (f now : Nat) (segs : List String) (q : String) :
    (segs ≠ segsOfMountPath p →
      bindingAt (routerMount r p f now).routes segs = bindingAt r.routes segs)
    ∧ bindingAt (routerMount r p f now).routes (segsOfMountPath p) = some f
    ∧ (resolvePathWithMount (routerMount r p f now) q).2.2
        = (resolvePathWithMount r q).2.2 := by
  refine ⟨fun h => mount_frame now f (segsOfMountPath p) r.routes segs h,
          mount_binds now f (segsOfMountPath p) r.routes, ?_⟩
  show (routerMount r p f now).routes.fs = r.routes.fs
  exact routerMount_root_fs r p f now

/-- C9 witness: the frame property at a concrete mount and segment path. -/
theorem c9_mount_frame_witness :
    (["zz"] : List String) ≠ segsOfMountPath "a"
    ∧ bindingAt (routerMount (Router.new 7 0) "a" 3 1).routes ["zz"]
        = bindingAt (Router.new 7 0).routes ["zz"]
    ∧ bindingAt (routerMount (Router.new 7 0) "a" 3 1).routes (segsOfMountPath "a")
        = some 3 := by
  refine ⟨by decide, ?_, (c9_mount_frame (Router.new 7 0) "a" 3 1 ["zz"] "q").2.1⟩
  exact (c9_mount_frame (Router.new 7 0) "a" 3 1 ["zz"] "q").1 (by decide)

/-- C10: TempFile with an empty dir delegates to the root backend, passing
the empty dir through unchanged, and its result is unaffected by any Mount;
with a nonempty dir it resolves the dir through the mount table and
delegates to the resolved backend with the rewritten path. -/
theorem c10_tempfile (env : Nat → BackendOps) (r : Router) (dir pfx p : String) (f now : Nat) :
    (dir = "" →
      routerTempFile env r dir pfx
          = (match r.routes.fs with
             | none => Except.error GoErr.nilFS
             | some root => (env root).tempFileF "" pfx)
        ∧ routerTempFile env (routerMount r p f now) "" pfx = routerTempFile env r "" pfx)
    ∧ (dir ≠ "" →
      routerTempFile env r dir pfx
          = (match resolvePath r dir with
             | (_, none) => Except.error GoErr.nilFS
             | (sub, some g) => (env g).tempFileF sub pfx)) := by
  constructor
  · intro h
    subst h
    constructor
    · simp [routerTempFile]
    · simp [routerTempFile, routerMount_root_fs]
  · intro h
    simp [routerTempFile, h]

/-- C10 witness: both TempFile branches and the mount-independence at
concrete inputs. -/
theorem c10_tempfile_witness :
    routerTempFile demoEnv (Router.new 0 0) "" "pre"
        = (match (Router.new 0 0).routes.fs with
           | none => Except.error GoErr.nilFS
           | some root => (demoEnv root).tempFileF "" "pre")
    ∧ routerTempFile demoEnv (routerMount (Router.new 0 0) "/tmp" 1 1) "" "pre"
        = routerTempFile demoEnv (Router.new 0 0) "" "pre"
    ∧ routerTempFile demoEnv (Router.new 0 0) "/d" "pre"
        = (match resolvePath (Router.new 0 0) "/d" with
           | (_, none) => Except.error GoErr.nilFS
           | (sub, some g) => (demoEnv g).tempFileF sub "pre") := by
  refine ⟨((c10_tempfile demoEnv (Router.new 0 0) "" "pre" "/tmp" 1 1).1 rfl).1,
          ((c10_tempfile demoEnv (Router.new 0 0) "" "pre" "/tmp" 1 1).1 rfl).2,
          (c10_tempfile demoEnv (Router.new 0 0) "/d" "pre" "x" 0 0).2 (by decide)⟩


end BillyRouter
